import Mathlib

/-!
Verification of the mini-nest dependency-injection container and request
pipeline (the `02-full` variant of the tutorial sources).

Shallow-embedding conventions used throughout this file:

* Modules, injection tokens and constructed instances are identified by
  natural numbers.  JavaScript `Map`/`Set` iteration order is insertion
  order, so maps and sets whose iteration order matters are embedded as
  lists in insertion order.
* The injector and the scanner recurse through a user-supplied module
  graph; the JavaScript originals can diverge on cyclic graphs
  (the injector has no cycle guard).  Recursion depth is therefore bounded
  by an explicit fuel parameter; running out of fuel is a distinguished
  outcome and never counts as success.
* Stateful classes become explicit state records threaded through the
  functions; `async`/`await` sequencing becomes ordinary sequential
  evaluation; thrown exceptions become `Except` errors.
-/

/-- Static description of one module as materialized by the scanner into the
`Module` class (core/module.ts): declared imports in insertion order,
exported tokens, provider tokens, controller tokens, and the recorded
`distance`. -/
structure ModuleDef where
  imports : List Nat
  exports : List Nat
  providers : List Nat
  controllers : List Nat
  distance : Nat
deriving DecidableEq

/-- Embedding of `Injector.lookupComponentInImports`: search for `token`
through the imports of module `m`, returning the module whose provider map
holds the winning binding (the source returns that module's
`InstanceWrapper`).  For each related module `r` in declared order: if `r`
does not export the token the search recurses into the imports of `r`
itself; if `r` exports it, the provider map of `r` is consulted and, on a
miss, the loop moves on to the next import.  `List.findSome?` is exactly
the source's first-non-null loop.  `fuel` bounds recursion depth; the
source has no cycle guard and diverges where the fuel would run out. -/
def lookupComponentInImports (env : Nat → ModuleDef) : Nat → Nat → Nat → Option Nat
  | 0, _, _ => none
  | f + 1, m, token =>
    (env m).imports.findSome? (fun r =>
      if token ∈ (env r).exports then
        if token ∈ (env r).providers then some r else none
      else lookupComponentInImports env f r token)

/-- Modelled from the spec (§4.2): the depth-first visit order of the
visibility search over an import list — each imported module in declared
order, where a module that does not export the token is followed
immediately by the recursive visit order of its own imports.  Written from
the spec's words, for comparison with `lookupComponentInImports`. -/
def dfsVisitOrder (env : Nat → ModuleDef) : Nat → List Nat → Nat → List Nat
  | 0, l, _ => l
  | f + 1, l, token =>
    l.flatMap (fun r =>
      if token ∈ (env r).exports then [r]
      else r :: dfsVisitOrder env f (env r).imports token)

/-- A module is a hit for the visibility search exactly when it both
exports and provides the token (the source reads
`relatedModule.providers.get(token)` only after `relatedModule.hasExport`
succeeded, and skips the module when either check fails). -/
def lookupHit (env : Nat → ModuleDef) (token : Nat) (r : Nat) : Bool :=
  decide (token ∈ (env r).exports) && decide (token ∈ (env r).providers)

theorem lookup_loop_eq_find (env : Nat → ModuleDef) (token : Nat) :
    ∀ fuel l,
      (l.findSome? (fun r =>
        if token ∈ (env r).exports then
          if token ∈ (env r).providers then some r else none
        else lookupComponentInImports env fuel r token))
      = (dfsVisitOrder env fuel l token).find? (lookupHit env token) := by
  intro fuel
  induction fuel with
  | zero =>
    intro l
    induction l with
    | nil => rfl
    | cons r rest ih =>
      simp only [lookupComponentInImports, dfsVisitOrder] at ih
      by_cases hexp : token ∈ (env r).exports
      · by_cases hprov : token ∈ (env r).providers
        · simp [List.findSome?, dfsVisitOrder, lookupHit, hexp, hprov]
        · simp [List.findSome?, dfsVisitOrder, lookupComponentInImports, lookupHit, hexp,
            hprov, ih]
      · simp [List.findSome?, dfsVisitOrder, lookupComponentInImports, lookupHit, hexp, ih]
  | succ f ihf =>
    intro l
    induction l with
    | nil => rfl
    | cons r rest ih =>
      by_cases hexp : token ∈ (env r).exports
      · by_cases hprov : token ∈ (env r).providers
        · simp [List.findSome?, dfsVisitOrder, lookupHit, hexp, hprov]
        · simp [List.findSome?, dfsVisitOrder, lookupHit, hexp, hprov, ih]
      · have hr : lookupComponentInImports env (f + 1) r token
            = (dfsVisitOrder env f (env r).imports token).find? (lookupHit env token) := by
          simpa [lookupComponentInImports] using ihf (env r).imports
        simp only [List.findSome?, dfsVisitOrder, hexp, if_false, List.flatMap_cons, hr, ih,
          List.cons_append]
        rw [List.find?_cons_of_neg _ (by simp [lookupHit, hexp])]
        rw [List.find?_append]
        cases h : (dfsVisitOrder env f (env r).imports token).find? (lookupHit env token) with
        | none => simp
        | some found => simp

/-- C1: Visibility look-through.  For a token that module `m` does not
provide itself, the dependency search visits the modules imported by `m`
in declared depth-first order — recursing into an import's own imports
when that import does not itself export the token — and returns the first
module in that order that both exports and provides the token.  In
particular (second conjunct) a token exported and provided two hops up
an import chain resolves for `m` even though the directly imported
intermediate module does not re-export it. -/
theorem c1_visibility_look_through (env : Nat → ModuleDef) (fuel m token : Nat)
    (hm : token ∉ (env m).providers) :
    lookupComponentInImports env (fuel + 1) m token
      = (dfsVisitOrder env fuel (env m).imports token).find? (lookupHit env token)
    ∧ (∀ a b f, fuel = f + 1 → (env m).imports = [a] → token ∉ (env a).exports →
        (env a).imports = [b] → token ∈ (env b).exports → token ∈ (env b).providers →
        lookupComponentInImports env (fuel + 1) m token = some b) := by
  refine ⟨?_, ?_⟩
  · simpa [lookupComponentInImports] using lookup_loop_eq_find env token fuel (env m).imports
  · rintro a b f rfl himp hna himpa hexb hprb
    simp [lookupComponentInImports, himp, himpa, List.findSome?, hna, hexb, hprb]

/-- Three-module chain used to witness C1: module 0 imports module 1,
module 1 imports module 2 and exports nothing, module 2 exports and
provides token 5. -/
def envC1 : Nat → ModuleDef := fun m =>
  match m with
  | 0 => ⟨[1], [], [], [], 0⟩
  | 1 => ⟨[2], [], [], [], 1⟩
  | 2 => ⟨[], [5], [5], [], 2⟩
  | _ => ⟨[], [], [], [], 0⟩

/-- Witness for C1: token 5, not provided by module 0, resolves through
the non-exporting intermediate module 1 to module 2. -/
theorem c1_visibility_look_through_witness :
    5 ∉ (envC1 0).providers ∧ lookupComponentInImports envC1 2 0 5 = some 2 :=
  ⟨by decide, (c1_visibility_look_through envC1 1 0 5 (by decide)).2 1 2 0 rfl rfl
    (by decide) rfl (by decide) (by decide)⟩

/-- Embedding of `InstanceWrapper` (core/instance-wrapper.ts): `metatype`
is `none` for a null metatype and otherwise carries the constructor
parameter token list that `getConstructorDependencies` reads from the
paramtypes metadata of the class; `instanceId` identifies the cached
`_instance` (`none` is null); `isResolved` is the `_isResolved` flag. -/
structure InstanceWrapper where
  metatype : Option (List Nat)
  instanceId : Option Nat
  isResolved : Bool
deriving DecidableEq

/-- Identity of one binding: which map it lives in (`true` for the
controller map, `false` for the provider map of its module), the owning
module (the wrapper's `host`, set when the wrapper is created) and its
token. -/
structure WKey where
  isCtrl : Bool
  host : Nat
  token : Nat
deriving DecidableEq

/-- Mutable container state seen by the injector: every wrapper, plus a
counter supplying the identity of the instance produced by the next
`new metatype(...instances)` construction. -/
structure InjSt where
  wrappers : WKey → InstanceWrapper
  nextId : Nat

/-- Read one wrapper. -/
def getW (st : InjSt) (k : WKey) : InstanceWrapper := st.wrappers k

/-- Overwrite one wrapper. -/
def setW (st : InjSt) (k : WKey) (w : InstanceWrapper) : InjSt :=
  ⟨fun k2 => if k2 = k then w else st.wrappers k2, st.nextId⟩

/-- Errors thrown by the injector: the unresolvable-dependency error of
`resolveSingleParam`, or exhaustion of the artificial recursion fuel
(where the source would recurse forever). -/
inductive InjErr
  | unresolvedDependency (token : Nat)
  | outOfFuel
deriving DecidableEq

/-- Wrapper location step of `Injector.resolveSingleParam` (injector
source lines 98-104): the wrapper for a dependency token is the one in the
providers of `moduleRef` itself or, failing that, the one found by
`lookupComponentInImports` (owned by the module the search returned). -/
def findWrapperKey (env : Nat → ModuleDef) (lfuel : Nat) (dep moduleRef : Nat) : Option WKey :=
  if dep ∈ (env moduleRef).providers then some ⟨false, moduleRef, dep⟩
  else
    match lookupComponentInImports env lfuel moduleRef dep with
    | some r => some ⟨false, r, dep⟩
    | none => none

/-- Embedding of `Injector.resolveSingleParam` (injector source lines
88-115): find the wrapper for dependency token `dep`; throw when no
wrapper is found; load it through the injector (`load` is the injector's
own loadProvider carrying the current fuel) when it is not yet resolved,
with the wrapper's `host` as its module; return the wrapper's cached
instance. -/
def resolveSingleParam (env : Nat → ModuleDef)
    (load : InjSt → WKey → Nat → Except InjErr InjSt) (lfuel : Nat)
    (st : InjSt) (dep moduleRef : Nat) : Except InjErr (InjSt × Option Nat) :=
  match findWrapperKey env lfuel dep moduleRef with
  | none => .error (.unresolvedDependency dep)
  | some k =>
    if (getW st k).isResolved then .ok (st, (getW st k).instanceId)
    else
      match load st k k.host with
      | .error e => .error e
      | .ok st1 => .ok (st1, (getW st1 k).instanceId)

/-- The `dependencies.map(resolveSingleParam)` / `Promise.all` step of
`resolveConstructorParams`, embedded as left-to-right sequential
resolution collecting the dependency instances positionally. -/
def resolveParams (env : Nat → ModuleDef)
    (load : InjSt → WKey → Nat → Except InjErr InjSt) (lfuel : Nat) :
    InjSt → List Nat → Nat → Except InjErr (InjSt × List (Option Nat))
  | st, [], _ => .ok (st, [])
  | st, d :: ds, moduleRef =>
    match resolveSingleParam env load lfuel st d moduleRef with
    | .error e => .error e
    | .ok (st1, inst) =>
      match resolveParams env load lfuel st1 ds moduleRef with
      | .error e => .error e
      | .ok (st2, rest) => .ok (st2, inst :: rest)

/-- Embedding of `Injector.resolveConstructorParams` (injector source
lines 71-86): null metatype marks the wrapper resolved without an
instance; otherwise all declared dependencies are resolved and
`new metatype(...instances)` stores a fresh instance and marks the wrapper
resolved. -/
def resolveConstructorParams (env : Nat → ModuleDef)
    (load : InjSt → WKey → Nat → Except InjErr InjSt) (lfuel : Nat)
    (st : InjSt) (k : WKey) (moduleRef : Nat) : Except InjErr InjSt :=
  match (getW st k).metatype with
  | none => .ok (setW st k { getW st k with isResolved := true })
  | some deps =>
    match resolveParams env load lfuel st deps moduleRef with
    | .error e => .error e
    | .ok (st1, _instances) =>
      let st2 := setW st1 k
        { getW st1 k with instanceId := some st1.nextId, isResolved := true }
      .ok { st2 with nextId := st2.nextId + 1 }

/-- Embedding of `Injector.loadProvider` (injector source lines 61-64):
return immediately when the wrapper is already resolved, otherwise resolve
its constructor parameters.  The recursive self-reference (`this` in the
source) is passed down with one unit of fuel consumed. -/
def loadProvider (env : Nat → ModuleDef) : Nat → InjSt → WKey → Nat → Except InjErr InjSt
  | 0, _, _, _ => .error .outOfFuel
  | f + 1, st, k, moduleRef =>
    if (getW st k).isResolved then .ok st
    else
      resolveConstructorParams env
        (fun st2 k2 m2 => loadProvider env f st2 k2 m2) f st k moduleRef

/-- Embedding of `Injector.loadController` (injector source lines 66-69):
its body is identical to `loadProvider`; controller wrappers are the ones
keyed with `isCtrl = true`. -/
def loadController (env : Nat → ModuleDef) : Nat → InjSt → WKey → Nat → Except InjErr InjSt :=
  loadProvider env

/-- A load function that never rewrites an already-resolved wrapper: on a
successful run every wrapper that was resolved going in is byte-for-byte
unchanged (cached instance included) coming out. -/
def PreservesResolved (load : InjSt → WKey → Nat → Except InjErr InjSt) : Prop :=
  ∀ st k m st2, load st k m = .ok st2 →
    ∀ k2, (getW st k2).isResolved = true → getW st2 k2 = getW st k2

theorem resolveSingleParam_preserves (env : Nat → ModuleDef)
    (load : InjSt → WKey → Nat → Except InjErr InjSt) (lfuel : Nat)
    (h : PreservesResolved load) (st : InjSt) (dep moduleRef : Nat) (st1 : InjSt)
    (inst : Option Nat)
    (hok : resolveSingleParam env load lfuel st dep moduleRef = .ok (st1, inst)) :
    ∀ k2, (getW st k2).isResolved = true → getW st1 k2 = getW st k2 := by
  intro k2 hk2
  rw [resolveSingleParam] at hok
  cases hfk : findWrapperKey env lfuel dep moduleRef with
  | none => rw [hfk] at hok; exact absurd hok (by simp)
  | some k =>
    rw [hfk] at hok
    dsimp only at hok
    cases hres : (getW st k).isResolved with
    | true =>
      simp only [hres, if_true] at hok
      rw [Except.ok.injEq, Prod.mk.injEq] at hok
      rw [← hok.1]
    | false =>
      simp only [hres, Bool.false_eq_true, if_false] at hok
      cases hld : load st k k.host with
      | error e => rw [hld] at hok; exact absurd hok (by simp)
      | ok stx =>
        rw [hld] at hok
        dsimp only at hok
        rw [Except.ok.injEq, Prod.mk.injEq] at hok
        exact hok.1 ▸ h st k k.host stx hld k2 hk2

theorem resolveParams_preserves (env : Nat → ModuleDef)
    (load : InjSt → WKey → Nat → Except InjErr InjSt) (lfuel : Nat)
    (h : PreservesResolved load) :
    ∀ ds (st : InjSt) (moduleRef : Nat) (st1 : InjSt) (insts : List (Option Nat)),
      resolveParams env load lfuel st ds moduleRef = .ok (st1, insts) →
      ∀ k2, (getW st k2).isResolved = true → getW st1 k2 = getW st k2 := by
  intro ds
  induction ds with
  | nil =>
    intro st moduleRef st1 insts hok k2 hk2
    rw [resolveParams] at hok
    rw [Except.ok.injEq, Prod.mk.injEq] at hok
    rw [← hok.1]
  | cons d ds ih =>
    intro st moduleRef st1 insts hok k2 hk2
    rw [resolveParams] at hok
    cases hsp : resolveSingleParam env load lfuel st d moduleRef with
    | error e => rw [hsp] at hok; exact absurd hok (by simp)
    | ok p =>
      obtain ⟨stx, inst⟩ := p
      rw [hsp] at hok
      dsimp only at hok
      cases hrp : resolveParams env load lfuel stx ds moduleRef with
      | error e => rw [hrp] at hok; exact absurd hok (by simp)
      | ok q =>
        obtain ⟨sty, rest⟩ := q
        rw [hrp] at hok
        dsimp only at hok
        rw [Except.ok.injEq, Prod.mk.injEq] at hok
        have h1 := resolveSingleParam_preserves env load lfuel h st d moduleRef stx inst hsp
          k2 hk2
        have h2 := ih stx moduleRef sty rest hrp k2 (by rw [h1]; exact hk2)
        exact hok.1 ▸ (h2.trans h1)

theorem resolveConstructorParams_preserves (env : Nat → ModuleDef)
    (load : InjSt → WKey → Nat → Except InjErr InjSt) (lfuel : Nat)
    (h : PreservesResolved load) (st : InjSt) (k : WKey) (moduleRef : Nat) (st1 : InjSt)
    (hk : (getW st k).isResolved = false)
    (hok : resolveConstructorParams env load lfuel st k moduleRef = .ok st1) :
    ∀ k2, (getW st k2).isResolved = true → getW st1 k2 = getW st k2 := by
  intro k2 hk2
  have hne : k2 ≠ k := by
    intro he
    rw [he, hk] at hk2
    exact Bool.false_ne_true hk2
  rw [resolveConstructorParams] at hok
  cases hmt : (getW st k).metatype with
  | none =>
    rw [hmt] at hok
    dsimp only at hok
    rw [Except.ok.injEq] at hok
    rw [← hok]
    simp [getW, setW, hne]
  | some deps =>
    rw [hmt] at hok
    dsimp only at hok
    cases hrp : resolveParams env load lfuel st deps moduleRef with
    | error e => rw [hrp] at hok; exact absurd hok (by simp)
    | ok q =>
      obtain ⟨stx, insts⟩ := q
      rw [hrp] at hok
      dsimp only at hok
      rw [Except.ok.injEq] at hok
      have h1 := resolveParams_preserves env load lfuel h deps st moduleRef stx insts hrp k2 hk2
      rw [← hok]
      simp only [getW, setW, hne, if_false]
      exact h1

theorem loadProvider_preserves (env : Nat → ModuleDef) :
    ∀ fuel, PreservesResolved (fun st k m => loadProvider env fuel st k m) := by
  intro fuel
  induction fuel with
  | zero =>
    intro st k m st2 hok
    exact absurd hok (by simp [loadProvider])
  | succ f ihf =>
    intro st k m st2 hok k2 hk2
    replace hok : loadProvider env (f + 1) st k m = .ok st2 := hok
    rw [loadProvider] at hok
    cases hres : (getW st k).isResolved with
    | true =>
      simp only [hres, if_true] at hok
      rw [Except.ok.injEq] at hok
      rw [← hok]
    | false =>
      simp only [hres, Bool.false_eq_true, if_false] at hok
      exact resolveConstructorParams_preserves env _ f ihf st k m st2 hres hok k2 hk2

theorem loadProvider_resolves (env : Nat → ModuleDef) (fuel : Nat) (st : InjSt) (k : WKey)
    (m : Nat) (st2 : InjSt) (hok : loadProvider env fuel st k m = .ok st2) :
    (getW st2 k).isResolved = true := by
  cases fuel with
  | zero => exact absurd hok (by simp [loadProvider])
  | succ f =>
    rw [loadProvider] at hok
    cases hres : (getW st k).isResolved with
    | true =>
      simp only [hres, if_true] at hok
      rw [Except.ok.injEq] at hok
      rw [← hok]
      exact hres
    | false =>
      simp only [hres, Bool.false_eq_true, if_false] at hok
      rw [resolveConstructorParams] at hok
      cases hmt : (getW st k).metatype with
      | none =>
        rw [hmt] at hok
        dsimp only at hok
        rw [Except.ok.injEq] at hok
        rw [← hok]
        simp [getW, setW]
      | some deps =>
        rw [hmt] at hok
        dsimp only at hok
        cases hrp : resolveParams env (fun st2 k2 m2 => loadProvider env f st2 k2 m2) f st
            deps m with
        | error e => rw [hrp] at hok; exact absurd hok (by simp)
        | ok q =>
          obtain ⟨stx, insts⟩ := q
          rw [hrp] at hok
          dsimp only at hok
          rw [Except.ok.injEq] at hok
          rw [← hok]
          simp [getW, setW]

/-- C2: Singleton idempotence.  (1) loadProvider on a resolved wrapper
returns with the state untouched — in particular no instance is
constructed; (2) on any successful load, every wrapper that was already
resolved keeps exactly its cached instance; (3) an unresolved binding with
a zero-length declared dependency list always resolves: one fresh instance
is constructed and cached, and invoking loadProvider again returns the
state unchanged, so repeated resolves yield exactly that one instance. -/
theorem c2_singleton_idempotence (env : Nat → ModuleDef) (fuel : Nat) (st : InjSt)
    (k : WKey) (moduleRef : Nat) :
    ((getW st k).isResolved = true → loadProvider env (fuel + 1) st k moduleRef = .ok st)
    ∧ (∀ st2, loadProvider env fuel st k moduleRef = .ok st2 →
        ∀ k2, (getW st k2).isResolved = true → getW st2 k2 = getW st k2)
    ∧ ((getW st k).isResolved = false → (getW st k).metatype = some [] →
        ∃ st2, loadProvider env (fuel + 1) st k moduleRef = .ok st2
          ∧ (getW st2 k).isResolved = true
          ∧ (getW st2 k).instanceId = some st.nextId
          ∧ st2.nextId = st.nextId + 1
          ∧ loadProvider env (fuel + 1) st2 k moduleRef = .ok st2) := by
  refine ⟨?_, ?_, ?_⟩
  · intro hres
    rw [loadProvider]
    simp [hres]
  · intro st2 hok k2 hk2
    exact loadProvider_preserves env fuel st k moduleRef st2 hok k2 hk2
  · intro hres hmt
    have hok : loadProvider env (fuel + 1) st k moduleRef
        = .ok ⟨fun k2 => if k2 = k then
            ⟨(getW st k).metatype, some st.nextId, true⟩ else st.wrappers k2,
            st.nextId + 1⟩ := by
      rw [loadProvider]
      simp only [hres, Bool.false_eq_true, if_false]
      rw [resolveConstructorParams, hmt]
      dsimp only
      rw [resolveParams]
      dsimp only
      rw [hmt]
      rfl
    refine ⟨_, hok, ?_, ?_, ?_, ?_⟩
    · simp [getW]
    · simp [getW]
    · rfl
    · rw [loadProvider]
      simp [getW]

/-- One-binding setting used to witness C2: a single provider wrapper with
an empty dependency list, unresolved. -/
def envC2 : Nat → ModuleDef := fun _ => ⟨[], [], [0], [], 0⟩

/-- Initial injector state for the C2 witness. -/
def stC2 : InjSt := ⟨fun _ => ⟨some [], none, false⟩, 0⟩

/-- Provider key used by the C2 witness. -/
def kC2 : WKey := ⟨false, 0, 0⟩

/-- Witness for C2: the zero-dependency wrapper resolves to one fresh
instance and a repeat load returns the state unchanged. -/
theorem c2_singleton_idempotence_witness :
    (getW stC2 kC2).isResolved = false ∧ (getW stC2 kC2).metatype = some [] ∧
    ∃ st2, loadProvider envC2 1 stC2 kC2 0 = .ok st2
      ∧ (getW st2 kC2).isResolved = true
      ∧ (getW st2 kC2).instanceId = some stC2.nextId
      ∧ st2.nextId = stC2.nextId + 1
      ∧ loadProvider envC2 1 st2 kC2 0 = .ok st2 :=
  ⟨rfl, rfl, (c2_singleton_idempotence envC2 0 stC2 kC2 0).2.2 rfl rfl⟩

/-- Embedding of the module sort in `MiniNestFactory.createInstances`
(`[...modules.values()].sort((a, b) => a.distance - b.distance)`):
a distance-ascending permutation of the registered modules. -/
def sortedByDistance (env : Nat → ModuleDef) (modules : List Nat) : List Nat :=
  modules.insertionSort (fun a b => (env a).distance ≤ (env b).distance)

/-- One resolution pass of `createInstances`: load each listed wrapper
(paired with the module that owns it, which the source passes as
`moduleRef`) in order, stopping at the first error. -/
def loadWrappers (env : Nat → ModuleDef) (fuel : Nat) :
    InjSt → List (WKey × Nat) → Except InjErr InjSt
  | st, [] => .ok st
  | st, (k, m) :: rest =>
    match loadProvider env fuel st k m with
    | .error e => .error e
    | .ok st1 => loadWrappers env fuel st1 rest

/-- The provider pass worklist of `createInstances`: every provider
wrapper of every module, modules in the given order, provider map in
insertion order. -/
def providerPassKeys (env : Nat → ModuleDef) (mods : List Nat) : List (WKey × Nat) :=
  mods.flatMap (fun m => (env m).providers.map (fun t => (⟨false, m, t⟩, m)))

/-- The controller pass worklist of `createInstances`. -/
def controllerPassKeys (env : Nat → ModuleDef) (mods : List Nat) : List (WKey × Nat) :=
  mods.flatMap (fun m => (env m).controllers.map (fun t => (⟨true, m, t⟩, m)))

/-- Embedding of `MiniNestFactory.createInstances` (factory source lines
155-183): sort the registered modules by distance ascending, resolve every
provider binding of every module in that order in one full pass, then
every controller binding in a second full pass (`loadController` has the
same body as `loadProvider`). -/
def createInstances (env : Nat → ModuleDef) (fuel : Nat) (modules : List Nat)
    (st : InjSt) : Except InjErr InjSt :=
  match loadWrappers env fuel st (providerPassKeys env (sortedByDistance env modules)) with
  | .error e => .error e
  | .ok st1 =>
    loadWrappers env fuel st1 (controllerPassKeys env (sortedByDistance env modules))

theorem loadWrappers_preserves (env : Nat → ModuleDef) (fuel : Nat) :
    ∀ keys (st st2 : InjSt), loadWrappers env fuel st keys = .ok st2 →
      ∀ k2, (getW st k2).isResolved = true → getW st2 k2 = getW st k2 := by
  intro keys
  induction keys with
  | nil =>
    intro st st2 hok k2 hk2
    rw [loadWrappers] at hok
    rw [Except.ok.injEq] at hok
    rw [← hok]
  | cons p rest ih =>
    intro st st2 hok k2 hk2
    obtain ⟨k, m⟩ := p
    rw [loadWrappers] at hok
    cases hld : loadProvider env fuel st k m with
    | error e => rw [hld] at hok; exact absurd hok (by simp)
    | ok stx =>
      rw [hld] at hok
      dsimp only at hok
      have h1 := loadProvider_preserves env fuel st k m stx hld k2 hk2
      have h2 := ih stx st2 hok k2 (by rw [h1]; exact hk2)
      rw [h2, h1]

theorem loadWrappers_resolves (env : Nat → ModuleDef) (fuel : Nat) :
    ∀ keys (st st2 : InjSt), loadWrappers env fuel st keys = .ok st2 →
      ∀ k m, (k, m) ∈ keys → (getW st2 k).isResolved = true := by
  intro keys
  induction keys with
  | nil =>
    intro st st2 _ k m hmem
    exact absurd hmem (List.not_mem_nil _)
  | cons p rest ih =>
    intro st st2 hok k m hmem
    obtain ⟨k1, m1⟩ := p
    rw [loadWrappers] at hok
    cases hld : loadProvider env fuel st k1 m1 with
    | error e => rw [hld] at hok; exact absurd hok (by simp)
    | ok stx =>
      rw [hld] at hok
      dsimp only at hok
      rcases List.mem_cons.mp hmem with he | hrest
      · obtain ⟨rfl, rfl⟩ := Prod.mk.injEq .. ▸ he
        have h1 := loadProvider_resolves env fuel st k m stx hld
        have h2 := loadWrappers_preserves env fuel rest stx st2 hok k h1
        rw [h2]
        exact h1
      · exact ih stx st2 hok k m hrest

/-- C9: Bootstrap instantiation order and completeness.  On a successful
`createInstances` run: the traversal order is the registered modules
sorted by distance ascending (a distance-sorted permutation); the run
decomposes into a full provider pass followed by a full controller pass;
and afterwards every provider binding and every controller binding of
every registered module is resolved. -/
theorem c9_bootstrap_order_completeness (env : Nat → ModuleDef) (fuel : Nat)
    (modules : List Nat) (st st2 : InjSt)
    (hok : createInstances env fuel modules st = .ok st2) :
    List.Sorted (fun a b => (env a).distance ≤ (env b).distance)
        (sortedByDistance env modules)
    ∧ (sortedByDistance env modules).Perm modules
    ∧ (∃ stMid,
        loadWrappers env fuel st (providerPassKeys env (sortedByDistance env modules))
          = .ok stMid
        ∧ loadWrappers env fuel stMid (controllerPassKeys env (sortedByDistance env modules))
          = .ok st2)
    ∧ (∀ m ∈ modules,
        (∀ t ∈ (env m).providers, (getW st2 ⟨false, m, t⟩).isResolved = true)
        ∧ (∀ t ∈ (env m).controllers, (getW st2 ⟨true, m, t⟩).isResolved = true)) := by
  rw [createInstances] at hok
  cases hp : loadWrappers env fuel st (providerPassKeys env (sortedByDistance env modules)) with
  | error e => rw [hp] at hok; exact absurd hok (by simp)
  | ok stMid =>
    rw [hp] at hok
    dsimp only at hok
    refine ⟨?_, ?_, ⟨stMid, rfl, hok⟩, ?_⟩
    · haveI h1 : IsTotal Nat (fun a b => (env a).distance ≤ (env b).distance) :=
        ⟨fun a b => Nat.le_total _ _⟩
      haveI h2 : IsTrans Nat (fun a b => (env a).distance ≤ (env b).distance) :=
        ⟨fun a b c hab hbc => Nat.le_trans hab hbc⟩
      exact List.sorted_insertionSort _ _
    · exact List.perm_insertionSort _ _
    · intro m hm
      have hmem : m ∈ sortedByDistance env modules :=
        ((List.perm_insertionSort _ modules).mem_iff).mpr hm
      constructor
      · intro t ht
        have hkey : (⟨false, m, t⟩, m)
            ∈ providerPassKeys env (sortedByDistance env modules) := by
          rw [providerPassKeys, List.mem_flatMap]
          exact ⟨m, hmem, List.mem_map.mpr ⟨t, ht, rfl⟩⟩
        have hres := loadWrappers_resolves env fuel _ st stMid hp ⟨false, m, t⟩ m hkey
        have hpres := loadWrappers_preserves env fuel _ stMid st2 hok ⟨false, m, t⟩ hres
        rw [hpres]
        exact hres
      · intro t ht
        have hkey : (⟨true, m, t⟩, m)
            ∈ controllerPassKeys env (sortedByDistance env modules) := by
          rw [controllerPassKeys, List.mem_flatMap]
          exact ⟨m, hmem, List.mem_map.mpr ⟨t, ht, rfl⟩⟩
        exact loadWrappers_resolves env fuel _ stMid st2 hok ⟨true, m, t⟩ m hkey

/-- One-module setting used to witness C9: module 0 has provider token 1
and controller token 2; the controller depends on the provider. -/
def envC9 : Nat → ModuleDef := fun _ => ⟨[], [], [1], [2], 0⟩

/-- Initial injector state for the C9 witness. -/
def stC9 : InjSt := ⟨fun k => ⟨some (if k.token = 2 then [1] else []), none, false⟩, 0⟩

/-- Witness for C9: bootstrap on the one-module setting succeeds and
leaves both the provider binding and the controller binding resolved. -/
theorem c9_bootstrap_order_completeness_witness :
    ∃ st2, createInstances envC9 3 [0] stC9 = .ok st2
      ∧ (getW st2 ⟨false, 0, 1⟩).isResolved = true
      ∧ (getW st2 ⟨true, 0, 2⟩).isResolved = true := by
  have hok : createInstances envC9 3 [0] stC9
      = .ok ((createInstances envC9 3 [0] stC9).toOption.getD stC9) := rfl
  have h := c9_bootstrap_order_completeness envC9 3 [0] stC9 _ hok
  exact ⟨_, hok, ((h.2.2.2 0 (by decide)).1 1 (by decide)),
    ((h.2.2.2 0 (by decide)).2 2 (by decide))⟩

/-- Scanner-visible container state for module discovery: the scanner's
visited-module `registry` array and the container's module map as an
insertion-ordered list of (module token, recorded distance) pairs. -/
structure ScanState where
  registry : List Nat
  mods : List (Nat × Nat)
deriving DecidableEq

/-- Embedding of `NestContainer.addModule` (core/container.ts lines
13-22): a module token already present keeps its existing entry
(`inserted: false`); otherwise a new module is appended with
`distance = scope.length`. -/
def addModule (mods : List (Nat × Nat)) (m : Nat) (d : Nat) : List (Nat × Nat) :=
  if m ∈ mods.map Prod.fst then mods else mods ++ [(m, d)]

/-- Embedding of `DependenciesScanner.scanForModules` (scanner source
lines 18-26): skip a module already in the registry; otherwise push it,
register it in the container with the current scope-stack length as its
distance, and recurse into its declared imports in order with the module
appended to the scope.  `fuel` bounds depth; a terminating source run is
reproduced by any fuel exceeding the number of reachable modules. -/
def scanForModules (imports : Nat → List Nat) : Nat → Nat → List Nat → ScanState → ScanState
  | 0, _, _, st => st
  | f + 1, m, scope, st =>
    if m ∈ st.registry then st
    else
      (imports m).foldl
        (fun acc inner => scanForModules imports f inner (scope ++ [m]) acc)
        ⟨st.registry ++ [m], addModule st.mods m scope.length⟩

/-- Invariant tying the two registration structures together: container
keys equal the registry in order, and the registry has no duplicates. -/
def ScanInv (st : ScanState) : Prop :=
  st.mods.map Prod.fst = st.registry ∧ st.registry.Nodup

theorem scanForModules_inv (imports : Nat → List Nat) :
    ∀ fuel m scope st, ScanInv st → ScanInv (scanForModules imports fuel m scope st) := by
  intro fuel
  induction fuel with
  | zero => intro m scope st h; exact h
  | succ f ihf =>
    intro m scope st h
    rw [scanForModules]
    by_cases hm : m ∈ st.registry
    · rw [if_pos hm]; exact h
    · rw [if_neg hm]
      have h1 : ScanInv ⟨st.registry ++ [m], addModule st.mods m scope.length⟩ := by
        obtain ⟨hmap, hnd⟩ := h
        unfold addModule
        rw [if_neg (by rw [hmap]; exact hm)]
        refine ⟨by simp [hmap], ?_⟩
        simp [List.nodup_append, hnd, hm]
      have hfold : ∀ (l : List Nat) (acc : ScanState), ScanInv acc →
          ScanInv (l.foldl
            (fun acc inner => scanForModules imports f inner (scope ++ [m]) acc) acc) := by
        intro l
        induction l with
        | nil => intro acc ha; exact ha
        | cons x xs ihl => intro acc ha; exact ihl _ (ihf x (scope ++ [m]) acc ha)
      exact hfold _ _ h1

theorem scanForModules_mods_grow (imports : Nat → List Nat) :
    ∀ fuel m scope st, ∃ l, (scanForModules imports fuel m scope st).mods = st.mods ++ l := by
  intro fuel
  induction fuel with
  | zero => intro m scope st; exact ⟨[], by simp [scanForModules]⟩
  | succ f ihf =>
    intro m scope st
    rw [scanForModules]
    by_cases hm : m ∈ st.registry
    · rw [if_pos hm]; exact ⟨[], by simp⟩
    · rw [if_neg hm]
      have hfold : ∀ (l : List Nat) (acc : ScanState), ∃ l2,
          (l.foldl (fun acc inner => scanForModules imports f inner (scope ++ [m]) acc)
            acc).mods = acc.mods ++ l2 := by
        intro l
        induction l with
        | nil => intro acc; exact ⟨[], by simp⟩
        | cons x xs ihl =>
          intro acc
          obtain ⟨l2, h2⟩ := ihl (scanForModules imports f x (scope ++ [m]) acc)
          obtain ⟨l1, h1⟩ := ihf x (scope ++ [m]) acc
          exact ⟨l1 ++ l2, by simp [List.foldl_cons, h2, h1]⟩
      unfold addModule
      by_cases hin : m ∈ st.mods.map Prod.fst
      · rw [if_pos hin]
        obtain ⟨l2, h2⟩ := hfold (imports m) ⟨st.registry ++ [m], st.mods⟩
        exact ⟨l2, h2⟩
      · rw [if_neg hin]
        obtain ⟨l2, h2⟩ := hfold (imports m) ⟨st.registry ++ [m], st.mods ++ [(m, scope.length)]⟩
        exact ⟨(m, scope.length) :: l2, by simpa using h2⟩

/-- Import graph used for the concrete part of C7: the root 0 declares
the imports [1, 3]; 1 imports 2; 2 imports 3.  Module 3 is reachable by
the depth-3 chain through 1 and 2 (visited first in declared order) and by
the direct edge from the root. -/
def importsC7 : Nat → List Nat := fun m =>
  match m with
  | 0 => [1, 3]
  | 1 => [2]
  | 2 => [3]
  | _ => []

/-- C7: Scanner registration and distance.  (1) From an empty container,
every module token ends up registered at most once, for any import graph
and any fuel (diamonds and repeated imports included); (2) a registered
entry — its recorded distance included — persists through any further
scanning; (3) in the diamond graph `importsC7`, module 3 is recorded with
distance 3, the scope-stack length at its first depth-first visit in
declared import order, even though the direct root edge gives a chain of
length 1 — order-sensitive, not shortest-path. -/
theorem c7_scanner_registration_distance (imports : Nat → List Nat) :
    (∀ fuel root, ((scanForModules imports fuel root [] ⟨[], []⟩).mods.map Prod.fst).Nodup)
    ∧ (∀ fuel m scope st p, p ∈ st.mods →
        p ∈ (scanForModules imports fuel m scope st).mods)
    ∧ (scanForModules importsC7 5 0 [] ⟨[], []⟩
        = ⟨[0, 1, 2, 3], [(0, 0), (1, 1), (2, 2), (3, 3)]⟩
      ∧ importsC7 0 = [1, 3]) := by
  refine ⟨?_, ?_, by decide, rfl⟩
  · intro fuel root
    obtain ⟨hmap, hnd⟩ := scanForModules_inv imports fuel root [] ⟨[], []⟩ ⟨rfl, List.nodup_nil⟩
    rw [hmap]
    exact hnd
  · intro fuel m scope st p hp
    obtain ⟨l, hl⟩ := scanForModules_mods_grow imports fuel m scope st
    rw [hl]
    exact List.mem_append_left _ hp

/-- Witness for C7: a pre-registered entry persists through a further
scan call. -/
theorem c7_scanner_registration_distance_witness :
    (0, 0) ∈ (ScanState.mk [9] [(0, 0)]).mods ∧
    (0, 0) ∈ (scanForModules importsC7 1 5 [] ⟨[9], [(0, 0)]⟩).mods :=
  ⟨by decide, (c7_scanner_registration_distance importsC7).2.1 1 5 [] ⟨[9], [(0, 0)]⟩ (0, 0)
    (by decide)⟩

/-- Observable events of the request pipeline, one per stage execution —
the instrumentation-counter view of which stages ran and in which order. -/
inductive Ev
  | guardEval (idx : Nat) (allowed : Bool)
  | bodyParse
  | argExtract
  | transformRun
  | handlerRun
  | interceptBefore (id : Nat)
  | interceptAfter (id : Nat)
  | filterRun (id : Nat)
  | defaultHandle
deriving DecidableEq

/-- Response payload carried by an `HttpException`: the constructor
accepts a string message or an object (embedded as a field list). -/
inductive ExcResp
  | str (s : String)
  | obj (fields : List (String × String))
deriving DecidableEq

/-- Raised values distinguished by the exceptions handler: an
`HttpException` with its status and response payload, a plain `Error`
with its message, or a thrown non-Error value. -/
inductive Exc
  | http (status : Nat) (resp : ExcResp)
  | err (msg : String)
  | other
deriving DecidableEq

/-- JSON body written to the response: the `{statusCode, message}` shape,
the `{statusCode, ...object}` shape, or the stringified handler result. -/
inductive Body
  | msgBody (statusCode : Nat) (message : String)
  | objBody (statusCode : Nat) (fields : List (String × String))
  | jsonOf (s : String)
deriving DecidableEq

/-- A written HTTP response: status code and JSON body. -/
structure Resp where
  status : Nat
  body : Body
deriving DecidableEq

/-- Embedding of `ArgumentMetadata` (interfaces): the source kind string
and the optional sub-key. -/
structure ArgumentMetadata where
  type : String
  data : Option String
deriving DecidableEq

/-- Embedding of `PipesConsumer.applyPipes` (pipes-consumer source lines
32-52): apply each pipe's transform in declared order, the output of one
feeding the next, with the same argument metadata each time; an empty pipe
list returns the value unchanged.  The trace records one event per
executed transform. -/
def applyPipes (value : String) (metadata : ArgumentMetadata) :
    List (String → ArgumentMetadata → String) → List Ev × String
  | [] => ([], value)
  | p :: ps =>
    let r := applyPipes (p value metadata) metadata ps
    (.transformRun :: r.1, r.2)

/-- First transform of the spec's chaining example: appends "-first". -/
def transform1 : String → ArgumentMetadata → String := fun v _ => v ++ "-first"

/-- Second transform of the spec's chaining example: appends "-second". -/
def transform2 : String → ArgumentMetadata → String := fun v _ => v ++ "-second"

theorem applyPipes_append (metadata : ArgumentMetadata)
    (ps qs : List (String → ArgumentMetadata → String)) :
    ∀ value, (applyPipes value metadata (ps ++ qs)).2
      = (applyPipes (applyPipes value metadata ps).2 metadata qs).2 := by
  induction ps with
  | nil => intro value; rfl
  | cons p ps ih => intro value; simpa [applyPipes] using ih (p value metadata)

/-- C8: Transform chaining.  An empty pipe list leaves the value
unchanged; a non-empty list runs its head on the value and feeds the
output to the rest (so declared order, output of one into the next, final
output becomes the handler argument); split points compose; and the spec's
example chain maps "value" through transform1 and transform2 to
"value-first-second". -/
theorem c8_transform_chaining (value : String) (metadata : ArgumentMetadata)
    (p : String → ArgumentMetadata → String)
    (ps qs : List (String → ArgumentMetadata → String)) :
    (applyPipes value metadata [] = ([], value))
    ∧ (applyPipes value metadata (p :: ps)
        = (.transformRun :: (applyPipes (p value metadata) metadata ps).1,
           (applyPipes (p value metadata) metadata ps).2))
    ∧ ((applyPipes value metadata (ps ++ qs)).2
        = (applyPipes (applyPipes value metadata ps).2 metadata qs).2)
    ∧ (applyPipes "value" ⟨"body", none⟩ [transform1, transform2]).2
        = "value-first-second" :=
  ⟨rfl, rfl, applyPipes_append metadata ps qs value, rfl⟩

/-- A per-request computation: the events it emits and its outcome (the
handler result or a raised exception).  This is the shape of the `next`
thunk and of `CallHandler.handle` in the interceptors consumer. -/
def PipeComp : Type := List Ev × Except Exc String

/-- An interceptor as consumed by `InterceptorsConsumer.intercept`: its
`intercept(context, next)` method as a function of the continue
computation. -/
def Interceptor : Type := PipeComp → PipeComp

/-- Embedding of `InterceptorsConsumer.intercept` (interceptors-consumer
source lines 32-69): with no interceptors the handler thunk runs
directly; otherwise the chain is built by `reduceRight`, making the
first-listed interceptor outermost, each receiving as its continue
callback the composition of the remaining interceptors around the
handler. -/
def intercept (interceptors : List Interceptor) (next : PipeComp) : PipeComp :=
  match interceptors with
  | [] => next
  | _ => interceptors.foldr (fun i acc => i acc) next

/-- A pass-through interceptor: emits its before event, awaits the
continue computation, emits its after event and returns the continued
result; when the continuation raises, the rejection propagates and the
after step never runs. -/
def passThrough (id : Nat) : Interceptor := fun next =>
  match next with
  | (t, .ok v) => (.interceptBefore id :: t ++ [.interceptAfter id], .ok v)
  | (t, .error e) => (.interceptBefore id :: t, .error e)

/-- An interceptor that never calls its continue callback and returns its
own value — the continuation contributes nothing to trace or result. -/
def shortCircuit (id : Nat) (v : String) : Interceptor := fun _ =>
  ([.interceptBefore id], .ok v)

/-- C4: Interceptor onion order.  An empty list invokes the handler thunk
directly; a non-empty list invokes its first interceptor with the
composition of the rest as the continue callback; two pass-through
interceptors around a successful handler produce exactly the order
I1-before, I2-before, handler, I2-after, I1-after with the handler result
preserved; an interceptor that skips its continue callback discards the
handler computation entirely and its own value becomes the result. -/
theorem c4_interceptor_onion (i : Interceptor) (interceptors : List Interceptor)
    (next : PipeComp) (v : String) :
    (intercept [] next = next)
    ∧ (intercept (i :: interceptors) next = i (intercept interceptors next))
    ∧ (∀ t r, intercept [passThrough 1, passThrough 2] (t, .ok r)
        = (.interceptBefore 1 :: .interceptBefore 2 :: t
            ++ [.interceptAfter 2, .interceptAfter 1], .ok r))
    ∧ (intercept [shortCircuit 3 v] next = ([.interceptBefore 3], .ok v)) := by
  refine ⟨rfl, ?_, ?_, rfl⟩
  · cases interceptors with
    | nil => rfl
    | cons j rest => rfl
  · intro t r
    simp [intercept, passThrough]

/-- Exception classes appearing in `instanceof` checks: `HttpException`
(which extends `Error`) and plain `Error`. -/
inductive ExcClass
  | httpException
  | errorClass
deriving DecidableEq

/-- The `instanceof` relation between raised values and exception
classes: an HttpException is an instance of both classes, a plain Error
only of `Error`, and a thrown non-Error value of neither. -/
def instanceOf : Exc → ExcClass → Bool
  | .http _ _, .httpException => true
  | .http _ _, .errorClass => true
  | .err _, .httpException => false
  | .err _, .errorClass => true
  | .other, _ => false

/-- One registered exception filter: its identity, the exception classes
its catch decorator declares (empty = catches everything), and the
response its own catch method writes. -/
structure FilterSpec where
  id : Nat
  catchTypes : List ExcClass
  respond : Exc → Resp

/-- Embedding of `ExceptionsHandler.findFilter` (exceptions-handler
source lines 103-124): the first filter in order whose declared type list
is empty or contains a class the exception is an instance of. -/
def findFilter (filters : List FilterSpec) (e : Exc) : Option FilterSpec :=
  filters.find? (fun f2 => f2.catchTypes.isEmpty || f2.catchTypes.any (instanceOf e))

/-- Embedding of `ExceptionsHandler.handleDefault` (exceptions-handler
source lines 129-160): an HttpException keeps its declared status, with a
string response becoming `{statusCode, message}` and an object response
being spread into `{statusCode, ...response}`; a plain Error maps to 500
with ITS OWN message in the body; any other thrown value maps to 500 with
the generic message. -/
def handleDefault (e : Exc) : Resp :=
  match e with
  | .http status (.str s) => ⟨status, .msgBody status s⟩
  | .http status (.obj fields) => ⟨status, .objBody status fields⟩
  | .err msg => ⟨500, .msgBody 500 msg⟩
  | .other => ⟨500, .msgBody 500 "Internal Server Error"⟩

/-- Embedding of `ExceptionsHandler.handle` (exceptions-handler source
lines 87-98): the first matching custom filter writes the response;
otherwise the default handling applies.  The trace records which of the
two ran. -/
def handleExc (filters : List FilterSpec) (e : Exc) : List Ev × Resp :=
  match findFilter filters e with
  | some f2 => ([.filterRun f2.id], f2.respond e)
  | none => ([.defaultHandle], handleDefault e)

/-- Counterexample to C6 as stated: with no registered filter, a plain
Error carrying the message "db secret detail" is mapped to a 500 whose
body contains exactly that message — the original error detail reaches the
client instead of a generic message. -/
theorem c6_counterexample :
    (handleExc [] (.err "db secret detail")).2
      = ⟨500, .msgBody 500 "db secret detail"⟩
    ∧ Body.msgBody 500 "db secret detail" ≠ Body.msgBody 500 "Internal Server Error" :=
  ⟨rfl, by decide⟩

/-- C6 (amended): when no registered filter matches, the default handler
maps an HttpException to its declared status code and message/body, and
maps any other raised value to HTTP 500 — with the generic message only
for thrown non-Error values, while a plain Error's own message IS placed
in the 500 response body. -/
theorem c6_default_error_mapping (filters : List FilterSpec) (e : Exc)
    (hnf : findFilter filters e = none) :
    handleExc filters e = ([.defaultHandle], handleDefault e)
    ∧ (∀ status s, e = .http status (.str s) →
        (handleExc filters e).2 = ⟨status, .msgBody status s⟩)
    ∧ (∀ status fields, e = .http status (.obj fields) →
        (handleExc filters e).2 = ⟨status, .objBody status fields⟩)
    ∧ (∀ msg, e = .err msg → (handleExc filters e).2 = ⟨500, .msgBody 500 msg⟩)
    ∧ (e = .other →
        (handleExc filters e).2 = ⟨500, .msgBody 500 "Internal Server Error"⟩) := by
  have hbase : handleExc filters e = ([.defaultHandle], handleDefault e) := by
    rw [handleExc, hnf]
  refine ⟨hbase, ?_, ?_, ?_, ?_⟩
  · rintro status s rfl; rw [hbase]; rfl
  · rintro status fields rfl; rw [hbase]; rfl
  · rintro msg rfl; rw [hbase]; rfl
  · rintro rfl; rw [hbase]; rfl

/-- Witness for the amended C6: no filters registered, a plain Error with
message "boom" yields a 500 whose body message is "boom". -/
theorem c6_default_error_mapping_witness :
    findFilter [] (Exc.err "boom") = none
    ∧ (handleExc [] (Exc.err "boom")).2 = ⟨500, .msgBody 500 "boom"⟩ :=
  ⟨rfl, (c6_default_error_mapping [] (.err "boom") rfl).2.2.2.1 "boom" rfl⟩

/-- One path-template segment: a literal, or a capturing parameter (the
marker-prefixed `:name` form in the source). -/
inductive RouteSeg
  | lit (s : String)
  | param (name : String)
deriving DecidableEq

/-- Embedding of the pattern test in `RouterExplorer.findRoute` (router
source lines 116-123): the template becomes an exact-segment-count
pattern in which a parameter segment matches any single non-empty path
segment (the source's `([^/]+)` group; split path segments contain no
separator by construction).  Both sides are embedded pre-split into
segments. -/
def matchSegs : List RouteSeg → List String → Bool
  | [], [] => true
  | .lit s :: rs, x :: xs => s == x && matchSegs rs xs
  | .param _ :: rs, x :: xs => !(x == "") && matchSegs rs xs
  | _, _ => false

/-- Embedding of `GuardsConsumer.tryActivate` (guards-consumer source
lines 68-90): evaluate each guard in order (a guard is represented by its
`canActivate` result); the first denial throws
`ForbiddenException("Forbidden resource")`; an empty list allows. -/
def tryActivate : Nat → List Bool → List Ev × Except Exc Unit
  | _, [] => ([], .ok ())
  | i, g :: gs =>
    if g then
      ((Ev.guardEval i true) :: (tryActivate (i + 1) gs).1, (tryActivate (i + 1) gs).2)
    else
      ([Ev.guardEval i false], .error (.http 403 (.str "Forbidden resource")))

/-- The Forbidden error thrown by a guard denial. -/
def forbiddenExc : Exc := .http 403 (.str "Forbidden resource")

/-- Trace of `n` consecutive allowing guard evaluations starting at
index `i`. -/
def guardTrace (i n : Nat) : List Ev :=
  (List.range n).map (fun j => Ev.guardEval (i + j) true)

theorem guardTrace_succ (i n : Nat) :
    guardTrace i (n + 1) = Ev.guardEval i true :: guardTrace (i + 1) n := by
  unfold guardTrace
  rw [List.range_succ_eq_map, List.map_cons, List.map_map, Nat.add_zero]
  congr 1
  refine List.map_congr_left (fun j hj => ?_)
  simp only [Function.comp_apply]
  congr 1
  omega

theorem tryActivate_allows (gs : List Bool) :
    ∀ i, (∀ g ∈ gs, g = true) →
      tryActivate i gs = (guardTrace i gs.length, .ok ()) := by
  induction gs with
  | nil => intro i _; rfl
  | cons g gs ih =>
    intro i h
    have hg := h g (List.mem_cons_self _ _)
    subst hg
    rw [tryActivate]
    rw [ih (i + 1) (fun g2 hm => h g2 (List.mem_cons_of_mem _ hm))]
    simp [guardTrace_succ]

theorem tryActivate_denies (gs1 : List Bool) :
    ∀ i gs2, (∀ g ∈ gs1, g = true) →
      tryActivate i (gs1 ++ false :: gs2)
        = (guardTrace i gs1.length ++ [Ev.guardEval (i + gs1.length) false],
           .error forbiddenExc) := by
  induction gs1 with
  | nil => intro i gs2 _; simp [tryActivate, guardTrace, forbiddenExc]
  | cons g gs1 ih =>
    intro i gs2 h
    have hg := h g (List.mem_cons_self _ _)
    subst hg
    rw [List.cons_append, tryActivate]
    rw [ih (i + 1) gs2 (fun g2 hm => h g2 (List.mem_cons_of_mem _ hm))]
    simp [guardTrace_succ, Nat.add_assoc, Nat.add_comm 1]

/-- One registered route: matcher data and the pipeline configuration
collected for it at route-creation time by `RouterExecutionContext.create`
— guard results in order, declared transforms, interceptors, the custom
exception filters read from its controller and handler, and the handler
behavior on the (transformed) argument.  `argValue`/`argMeta` stand for
the argument produced by body parsing and positional extraction (the
body-decoding collaborator is external per the spec). -/
structure RouteEntry where
  method : String
  segs : List RouteSeg
  guards : List Bool
  pipes : List (String → ArgumentMetadata → String)
  argValue : String
  argMeta : ArgumentMetadata
  interceptors : List Interceptor
  filters : List FilterSpec
  handler : String → Except Exc String

/-- Embedding of `RouterExplorer.findRoute` (router source lines
116-123): the first route whose method matches and whose pattern accepts
the path. -/
def findRoute (routes : List RouteEntry) (method : String) (path : List String) :
    Option RouteEntry :=
  routes.find? (fun route => route.method == method && matchSegs route.segs path)

/-- Embedding of the request closure produced by
`RouterExecutionContext.create` (router-execution-context source lines
77-118): run the guards; on pass, parse the body, extract the argument,
apply the pipes, run the interceptor chain around the handler thunk and
emit the result as JSON (status 200); any raised exception goes instead to
the exceptions handler with the given custom-filter list. -/
def runMatchedRequest (route : RouteEntry) (filters : List FilterSpec) : List Ev × Resp :=
  let g := tryActivate 0 route.guards
  match g.2 with
  | .error e => (g.1 ++ (handleExc filters e).1, (handleExc filters e).2)
  | .ok _ =>
    let p := applyPipes route.argValue route.argMeta route.pipes
    let hi := intercept route.interceptors ([Ev.handlerRun], route.handler p.2)
    match hi.2 with
    | .ok r => (g.1 ++ Ev.bodyParse :: Ev.argExtract :: (p.1 ++ hi.1), ⟨200, .jsonOf r⟩)
    | .error e =>
      (g.1 ++ Ev.bodyParse :: Ev.argExtract :: (p.1 ++ hi.1 ++ (handleExc filters e).1),
       (handleExc filters e).2)

/-- The custom-filter list held by the shared `ExceptionsHandler` once all
routes are built: `RouterExecutionContext.create` calls `setCustomFilters`
once per created route in creation order and the handler keeps only the
last assignment (`this.filters = filters`); it starts empty. -/
def lastFilters (routes : List RouteEntry) : List FilterSpec :=
  routes.foldl (fun _ route => route.filters) []

/-- Embedding of `RouterExplorer.createRequestHandler` (router source
lines 92-114), composed with the shared exceptions-handler state: with no
matching route, a 404 `{statusCode, message}` JSON response is written
immediately and no pipeline stage runs (empty trace); on a match, the
route's request closure runs, its error path consulting the shared filter
list left in place by the last-created route. -/
def createRequestHandler (routes : List RouteEntry) (method : String)
    (path : List String) : List Ev × Resp :=
  match findRoute routes method path with
  | none =>
    ([], ⟨404, .msgBody 404
      ("Cannot " ++ method.toUpper ++ " /" ++ String.intercalate "/" path)⟩)
  | some route => runMatchedRequest route (lastFilters routes)

/-- C3: Guard short-circuit.  For a matched request: if every guard allows
(no guards included), the pipeline proceeds, the trace showing every guard
evaluated in order strictly before body parsing and argument extraction;
if the guard list has a first denier, the request is aborted with the
Forbidden error — the trace holds exactly the allowing prefix, the denying
guard and the error handling, and no body parse, argument extraction,
transform, interceptor or handler event ever occurs; with no custom
filters the written response is 403 with the "Forbidden resource"
message. -/
theorem c3_guard_short_circuit (route : RouteEntry) (filters : List FilterSpec)
    (gs1 gs2 : List Bool) :
    ((∀ g ∈ route.guards, g = true) →
      ∃ rest, (runMatchedRequest route filters).1
        = guardTrace 0 route.guards.length ++ Ev.bodyParse :: Ev.argExtract :: rest)
    ∧ (route.guards = gs1 ++ false :: gs2 → (∀ g ∈ gs1, g = true) →
        runMatchedRequest route filters
          = (guardTrace 0 gs1.length ++ Ev.guardEval gs1.length false
              :: (handleExc filters forbiddenExc).1,
             (handleExc filters forbiddenExc).2)
        ∧ Ev.bodyParse ∉ (runMatchedRequest route filters).1
        ∧ Ev.argExtract ∉ (runMatchedRequest route filters).1
        ∧ Ev.transformRun ∉ (runMatchedRequest route filters).1
        ∧ Ev.handlerRun ∉ (runMatchedRequest route filters).1
        ∧ (∀ id, Ev.interceptBefore id ∉ (runMatchedRequest route filters).1)
        ∧ (filters = [] →
            (runMatchedRequest route filters).2
              = ⟨403, .msgBody 403 "Forbidden resource"⟩)) := by
  constructor
  · intro hall
    unfold runMatchedRequest
    rw [tryActivate_allows route.guards 0 hall]
    dsimp only
    cases hres : (intercept route.interceptors
        ([Ev.handlerRun], route.handler
          (applyPipes route.argValue route.argMeta route.pipes).2)).2 with
    | ok r =>
      exact ⟨(applyPipes route.argValue route.argMeta route.pipes).1
        ++ (intercept route.interceptors ([Ev.handlerRun], route.handler
            (applyPipes route.argValue route.argMeta route.pipes).2)).1, rfl⟩
    | error e =>
      exact ⟨(applyPipes route.argValue route.argMeta route.pipes).1
        ++ (intercept route.interceptors ([Ev.handlerRun], route.handler
            (applyPipes route.argValue route.argMeta route.pipes).2)).1
        ++ (handleExc filters e).1, rfl⟩
  · intro hsplit hall
    have hrun : runMatchedRequest route filters
        = (guardTrace 0 gs1.length ++ Ev.guardEval gs1.length false
            :: (handleExc filters forbiddenExc).1,
           (handleExc filters forbiddenExc).2) := by
      unfold runMatchedRequest
      rw [hsplit, tryActivate_denies gs1 0 gs2 hall]
      simp [Nat.zero_add]
    have hmem : ∀ ev, ev ∈ (runMatchedRequest route filters).1 →
        (∃ j b, ev = Ev.guardEval j b) ∨ (∃ fid, ev = Ev.filterRun fid)
        ∨ ev = Ev.defaultHandle := by
      intro ev hev
      rw [hrun] at hev
      simp only [List.mem_append, List.mem_cons, guardTrace, List.mem_map,
        List.mem_range] at hev
      rcases hev with ⟨j, _, rfl⟩ | rfl | hh
      · exact .inl ⟨0 + j, true, rfl⟩
      · exact .inl ⟨gs1.length, false, rfl⟩
      · rw [handleExc] at hh
        cases hf : findFilter filters forbiddenExc with
        | none => rw [hf] at hh; simp at hh; exact .inr (.inr hh)
        | some f2 =>
          rw [hf] at hh
          simp at hh
          exact .inr (.inl ⟨f2.id, hh⟩)
    refine ⟨hrun, ?_, ?_, ?_, ?_, ?_, ?_⟩
    · intro hc; rcases hmem _ hc with ⟨j, b, h⟩ | ⟨fid, h⟩ | h <;> exact Ev.noConfusion h
    · intro hc; rcases hmem _ hc with ⟨j, b, h⟩ | ⟨fid, h⟩ | h <;> exact Ev.noConfusion h
    · intro hc; rcases hmem _ hc with ⟨j, b, h⟩ | ⟨fid, h⟩ | h <;> exact Ev.noConfusion h
    · intro hc; rcases hmem _ hc with ⟨j, b, h⟩ | ⟨fid, h⟩ | h <;> exact Ev.noConfusion h
    · intro id hc
      rcases hmem _ hc with ⟨j, b, h⟩ | ⟨fid, h⟩ | h <;> exact Ev.noConfusion h
    · rintro rfl
      rw [hrun]
      rfl

/-- Route used to witness C3: one allowing guard followed by a denying
guard, with a transform and a handler that would otherwise run. -/
def routeC3 : RouteEntry :=
  ⟨"post", [.lit "cats"], [true, false], [transform1], "body", ⟨"body", none⟩, [],
    [], fun v => .ok v⟩

/-- Witness for C3: the denial aborts with 403 before body parsing and the
transform stage never runs. -/
theorem c3_guard_short_circuit_witness :
    routeC3.guards = [true] ++ false :: []
    ∧ (runMatchedRequest routeC3 []).2 = ⟨403, .msgBody 403 "Forbidden resource"⟩
    ∧ Ev.bodyParse ∉ (runMatchedRequest routeC3 []).1
    ∧ Ev.transformRun ∉ (runMatchedRequest routeC3 []).1 := by
  have h := (c3_guard_short_circuit routeC3 [] [true] []).2 rfl (by decide)
  exact ⟨rfl, h.2.2.2.2.2.2 rfl, h.2.1, h.2.2.2.1⟩

/-- C5: Unmatched-route behavior.  When no registered route matches the
request method and path, the dispatcher immediately writes a 404 response
whose JSON body carries `statusCode` and a `Cannot METHOD path` message,
with an empty stage trace — no guard, transform, interceptor, handler or
error filter runs. -/
theorem c5_unmatched_route (routes : List RouteEntry) (method : String)
    (path : List String) (hnm : findRoute routes method path = none) :
    createRequestHandler routes method path
      = ([], ⟨404, .msgBody 404
          ("Cannot " ++ method.toUpper ++ " /" ++ String.intercalate "/" path)⟩) := by
  unfold createRequestHandler
  rw [hnm]

/-- Route used to witness C5: `GET /cats` only. -/
def routeC5 : RouteEntry :=
  ⟨"get", [.lit "cats"], [], [], "", ⟨"body", none⟩, [], [], fun v => .ok v⟩

/-- Witness for C5: a `POST /cats` request matches nothing and yields the
immediate 404 with an empty stage trace. -/
theorem c5_unmatched_route_witness :
    findRoute [routeC5] "post" ["cats"] = none
    ∧ createRequestHandler [routeC5] "post" ["cats"]
        = ([], ⟨404, .msgBody 404
            ("Cannot " ++ "post".toUpper ++ " /" ++ String.intercalate "/" ["cats"])⟩) :=
  ⟨rfl, c5_unmatched_route [routeC5] "post" ["cats"] rfl⟩

/-- A catch-everything filter with identity 7 writing its own response,
used to exhibit the shared-filter-list behavior. -/
def filterAll7 : FilterSpec := ⟨7, [], fun _ => ⟨999, .msgBody 999 "custom filter"⟩⟩

/-- First-created route of the C10 scenario: `GET /a`, declares the
catch-all filter 7, and its handler throws a plain Error. -/
def routeA : RouteEntry :=
  ⟨"get", [.lit "a"], [], [], "", ⟨"body", none⟩, [], [filterAll7],
    fun _ => .error (.err "boom")⟩

/-- Last-created route of the C10 scenario: `GET /b`, declares no
filters. -/
def routeB : RouteEntry :=
  ⟨"get", [.lit "b"], [], [], "", ⟨"body", none⟩, [], [], fun v => .ok v⟩

/-- C10: Shared exception-filter list, last-writer-wins.  Appending a
created route overwrites the shared handler's list with that route's
filters; every matched request is processed with the shared list of the
last-created route, not the matched route's own; concretely, a request
matching `routeA` (which declared catch-all filter 7) is error-handled by
the default path because the later-created `routeB` left an empty filter
list — filter 7 never runs even though `routeA` declared it. -/
theorem c10_shared_filters_last_writer_wins (routes : List RouteEntry)
    (route : RouteEntry) (method : String) (path : List String) :
    (lastFilters (routes ++ [route]) = route.filters)
    ∧ (∀ r, findRoute routes method path = some r →
        createRequestHandler routes method path
          = runMatchedRequest r (lastFilters routes))
    ∧ ((createRequestHandler [routeA, routeB] "get" ["a"]).1
        = [Ev.bodyParse, Ev.argExtract, Ev.handlerRun, Ev.defaultHandle]
      ∧ Ev.filterRun 7 ∉ (createRequestHandler [routeA, routeB] "get" ["a"]).1
      ∧ (createRequestHandler [routeA, routeB] "get" ["a"]).2
          = ⟨500, .msgBody 500 "boom"⟩
      ∧ routeA.filters ≠ lastFilters [routeA, routeB]) := by
  refine ⟨?_, ?_, rfl, by decide, rfl, ?_⟩
  · unfold lastFilters
    rw [List.foldl_append]
    rfl
  · intro r hr
    unfold createRequestHandler
    rw [hr]
  · exact fun h => List.cons_ne_nil _ _ h

/-- Witness for C10: the `GET /a` request of the scenario matches
`routeA`, and dispatch processes it with the shared (last-written) filter
list. -/
theorem c10_shared_filters_last_writer_wins_witness :
    findRoute [routeA, routeB] "get" ["a"] = some routeA
    ∧ createRequestHandler [routeA, routeB] "get" ["a"]
        = runMatchedRequest routeA (lastFilters [routeA, routeB]) :=
  ⟨rfl, (c10_shared_filters_last_writer_wins [routeA, routeB] routeB "get" ["a"]).2.1
    routeA rfl⟩
